import Mathlib

/-!
Verification of the question-selection and answer-normalization engine of the
Cancer_Risk repository (`main.py`, endpoint `get_next_question`), shallowly
embedded in Lean.  Strings are modelled as Lean `String`, the SQLAlchemy rows
as plain structures, the per-request session/commit as explicit state passing,
and Python exceptions as `Except`.
-/

namespace CancerRisk

/-! ## Python string primitives -/

/-- Whitespace characters stripped by Python `str.strip()` (ASCII subset). -/
def pyIsSpace (c : Char) : Bool :=
  c = ' ' || c = '\t' || c = '\n' || c = '\x0d' || c = '\x0b' || c = '\x0c'

/-- Models Python `str.strip()` (both ends, default whitespace). -/
def pyStrip (s : String) : String :=
  ⟨((s.data.dropWhile pyIsSpace).reverse.dropWhile pyIsSpace).reverse⟩

/-- Models the emptiness test the handler applies to an answer string:
`not answer or answer.strip() == ""` (snapshot values are always `str`). -/
def isEmptyAns (s : String) : Bool := pyStrip s = ""

/-- Split a character list on a separator, keeping empty pieces,
like Python `str.split(sep)` for a one-character separator. -/
def splitChar (sep : Char) : List Char → List (List Char)
  | [] => [[]]
  | c :: rest =>
    match splitChar sep rest with
    | [] => [[c]]
    | p :: ps => if c = sep then [] :: p :: ps else (c :: p) :: ps

/-- Models Python `s.split(sep)` for a one-character separator. -/
def pySplit (sep : Char) (s : String) : List String :=
  (splitChar sep s.data).map (fun l => ⟨l⟩)

/-- Models Python `sep in s` for a one-character fragment. -/
def strContains (s : String) (c : Char) : Bool := s.data.contains c

/-- Models Python `s.startswith("[")`. -/
def startsWithBracket (s : String) : Bool :=
  match s.data with
  | '[' :: _ => true
  | _ => false

/-- Models Python `s.replace(c, "")` for a one-character pattern. -/
def removeChar (c : Char) (s : String) : String := ⟨s.data.filter (· ≠ c)⟩

/-- Decimal digit test. -/
def isDigit (c : Char) : Bool := c.toNat ≥ 48 && c.toNat ≤ 57

def digitVal (c : Char) : Nat := c.toNat - 48

/-- Digit-run parser for Python `int()`: digits with single underscores
allowed between digits (PEP 515). -/
def parseDigitsGo (acc : Nat) : List Char → Option Nat
  | [] => some acc
  | '_' :: d :: rest =>
    if isDigit d then parseDigitsGo (acc * 10 + digitVal d) rest else none
  | '_' :: [] => none
  | d :: rest =>
    if isDigit d then parseDigitsGo (acc * 10 + digitVal d) rest else none

def parseDigitsU : List Char → Option Nat
  | [] => none
  | d :: rest => if isDigit d then parseDigitsGo (digitVal d) rest else none

/-- Models Python `int(s)` on a decimal string: strips whitespace, allows one
sign, then digits (with underscore grouping).  `none` models `ValueError`. -/
def pyInt (s : String) : Option Int :=
  match (pyStrip s).data with
  | '+' :: rest => (parseDigitsU rest).map Int.ofNat
  | '-' :: rest => (parseDigitsU rest).map (fun n => -(n : Int))
  | l => (parseDigitsU l).map Int.ofNat

/-- ASCII lower-casing, models Python `str.lower()` on the catalog's
type strings. -/
def pyLower (s : String) : String := ⟨s.data.map Char.toLower⟩

/-- Fuel-driven substring replacement, models Python `str.replace(pat, repl)`
for a non-empty pattern. -/
def replaceGo (pat repl : List Char) : Nat → List Char → List Char
  | 0, cs => cs
  | fuel + 1, cs =>
    if pat ≠ [] && pat.isPrefixOf cs then
      repl ++ replaceGo pat repl fuel (cs.drop pat.length)
    else
      match cs with
      | [] => []
      | c :: rest => c :: replaceGo pat repl fuel rest

def pyReplace (s pat repl : String) : String :=
  ⟨replaceGo pat.data repl.data (s.data.length + 1) s.data⟩

/-- Models `question.type.lower().replace("checkbox", "multi_select")`. -/
def displayType (t : String) : String :=
  pyReplace (pyLower t) "checkbox" "multi_select"

/-! ## Model of `json.dumps` on a list of strings

The handler only ever serializes lists of strings
(`json.dumps(answer.split(","))`, `json.dumps(["Unknown"])`).  `json.dumps`
uses default separators `", "` and `ensure_ascii=True`: characters outside
`0x20..0x7e` (and `"` and `\`) are escaped. -/

def hexDigitChar (n : Nat) : Char :=
  if n < 10 then Char.ofNat ('0'.toNat + n) else Char.ofNat ('a'.toNat + n - 10)

def hex4 (n : Nat) : List Char :=
  [hexDigitChar (n / 4096 % 16), hexDigitChar (n / 256 % 16),
   hexDigitChar (n / 16 % 16), hexDigitChar (n % 16)]

/-- JSON string escaping of one character, per `json.dumps` with
`ensure_ascii=True`. -/
def escChar (c : Char) : List Char :=
  if c = '"' then ['\\', '"']
  else if c = '\\' then ['\\', '\\']
  else if c = '\n' then ['\\', 'n']
  else if c = '\x0d' then ['\\', 'r']
  else if c = '\t' then ['\\', 't']
  else if c = '\x08' then ['\\', 'b']
  else if c = '\x0c' then ['\\', 'f']
  else if 0x20 ≤ c.toNat && c.toNat ≤ 0x7e then [c]
  else if c.toNat < 0x10000 then '\\' :: 'u' :: hex4 c.toNat
  else
    let v := c.toNat - 0x10000
    ('\\' :: 'u' :: hex4 (0xd800 + v / 0x400)) ++ ('\\' :: 'u' :: hex4 (0xdc00 + v % 0x400))

def jsonDumpsStrChars (s : String) : List Char :=
  '"' :: (s.data.map escChar).flatten ++ ['"']

/-- Join already-encoded elements with the default `", "` separator. -/
def sepJoin : List (List Char) → List Char
  | [] => []
  | [x] => x
  | x :: xs => x ++ ',' :: ' ' :: sepJoin xs

/-- Models `json.dumps(l)` for a Python list of strings. -/
def jsonDumps (l : List String) : String :=
  ⟨'[' :: sepJoin (l.map jsonDumpsStrChars) ++ [']']⟩

/-! ## Model of `json.loads` on strings that start with `[`

The dependency evaluator calls `json.loads` on a stored value that starts
with `[`; a successful parse is necessarily a JSON array.  Elements are
returned as `some s` for JSON strings and as `none` for every other JSON
value (numbers, booleans, `null`, nested containers) — Python compares those
elements with `==` against a `str`, which only a `str` can equal.  A `none`
result of the whole parse models `json.JSONDecodeError`.  (`\uXXXX` escapes
decode to the code point; surrogate pairs are not recombined — no engine
value outside the BMP is involved anywhere.) -/

def skipWs : List Char → List Char :=
  List.dropWhile (fun c => c = ' ' || c = '\n' || c = '\t' || c = '\x0d')

def hexVal (c : Char) : Option Nat :=
  let n := c.toNat
  if 48 ≤ n ∧ n ≤ 57 then some (n - 48)
  else if 97 ≤ n ∧ n ≤ 102 then some (n - 87)
  else if 65 ≤ n ∧ n ≤ 70 then some (n - 55)
  else none

def escCode (e : Char) : Option Char :=
  if e = '"' then some '"'
  else if e = '\\' then some '\\'
  else if e = '/' then some '/'
  else if e = 'b' then some '\x08'
  else if e = 'f' then some '\x0c'
  else if e = 'n' then some '\n'
  else if e = 'r' then some '\x0d'
  else if e = 't' then some '\t'
  else none

/-- JSON string body parser (after the opening quote); strict mode rejects
raw control characters and unknown escapes. -/
def parseJStrGo : List Char → List Char → Option (String × List Char)
  | [], _ => none
  | c :: rest, acc =>
    if c = '"' then some (⟨acc.reverse⟩, rest)
    else if c = '\\' then
      match rest with
      | 'u' :: h1 :: h2 :: h3 :: h4 :: rest2 =>
        (match hexVal h1, hexVal h2, hexVal h3, hexVal h4 with
         | some a, some b, some c2, some d =>
           parseJStrGo rest2 (Char.ofNat (a * 4096 + b * 256 + c2 * 16 + d) :: acc)
         | _, _, _, _ => none)
      | e :: rest2 =>
        (match escCode e with
         | some c2 => parseJStrGo rest2 (c2 :: acc)
         | none => none)
      | [] => none
    else if c.toNat < 0x20 then none
    else parseJStrGo rest (c :: acc)

def parseJStr (cs : List Char) : Option (String × List Char) := parseJStrGo cs []

/-- JSON number: int part (`0` or nonzero digit then digits). -/
def parseIntPart : List Char → Option (List Char)
  | '0' :: rest => some rest
  | c :: rest => if isDigit c then some (rest.dropWhile isDigit) else none
  | [] => none

def parseFracPart : List Char → Option (List Char)
  | '.' :: rest =>
    match rest with
    | c :: r2 => if isDigit c then some (r2.dropWhile isDigit) else none
    | [] => none
  | cs => some cs

def parseExpDigits : List Char → Option (List Char)
  | c :: r => if isDigit c then some (r.dropWhile isDigit) else none
  | [] => none

def parseExpTail : List Char → Option (List Char)
  | '+' :: r => parseExpDigits r
  | '-' :: r => parseExpDigits r
  | r => parseExpDigits r

def parseExpPart : List Char → Option (List Char)
  | 'e' :: rest => parseExpTail rest
  | 'E' :: rest => parseExpTail rest
  | cs => some cs

def parseNumBody (cs : List Char) : Option (List Char) := do
  let r1 ← parseIntPart cs
  let r2 ← parseFracPart r1
  parseExpPart r2

def parseNum : List Char → Option (List Char)
  | '-' :: rest => parseNumBody rest
  | cs => parseNumBody cs

/-- Validate-and-skip one JSON value / array tail / object tail (`mode`
0 / 1 / 2), fuel-driven. -/
def jsonP : Nat → Nat → List Char → Option (List Char)
  | 0, _, _ => none
  | fuel + 1, 0, cs =>
    match skipWs cs with
    | '"' :: rest => (parseJStr rest).map (·.2)
    | 't' :: 'r' :: 'u' :: 'e' :: rest => some rest
    | 'f' :: 'a' :: 'l' :: 's' :: 'e' :: rest => some rest
    | 'n' :: 'u' :: 'l' :: 'l' :: rest => some rest
    | '[' :: rest =>
      (match skipWs rest with
       | ']' :: r2 => some r2
       | cs2 => jsonP fuel 1 cs2)
    | '{' :: rest =>
      (match skipWs rest with
       | '}' :: r2 => some r2
       | cs2 => jsonP fuel 2 cs2)
    | cs2 => parseNum cs2
  | fuel + 1, 1, cs => do
    let r ← jsonP fuel 0 cs
    match skipWs r with
    | ',' :: r2 => jsonP fuel 1 r2
    | ']' :: r2 => some r2
    | _ => none
  | fuel + 1, _, cs =>
    match skipWs cs with
    | '"' :: rest =>
      match parseJStr rest with
      | some (_, r) =>
        (match skipWs r with
         | ':' :: r2 =>
           match jsonP fuel 0 r2 with
           | some r3 =>
             (match skipWs r3 with
              | ',' :: r4 => jsonP fuel 2 r4
              | '}' :: r4 => some r4
              | _ => none)
           | none => none
         | _ => none)
      | none => none
    | _ => none

/-- Collect the elements of a JSON array (positioned at the first element),
as `some s` for JSON strings and `none` for any other JSON value. -/
def jsonElems : Nat → List Char → List (Option String) → Option (List (Option String) × List Char)
  | 0, _, _ => none
  | fuel + 1, cs, acc =>
    let step : Option (Option String × List Char) :=
      match skipWs cs with
      | '"' :: rest => (parseJStr rest).map (fun p => (some p.1, p.2))
      | cs1 => (jsonP fuel 0 cs1).map (fun r => (none, r))
    match step with
    | none => none
    | some (elem, r) =>
      match skipWs r with
      | ',' :: r2 => jsonElems fuel r2 (elem :: acc)
      | ']' :: r2 => some ((elem :: acc).reverse, r2)
      | _ => none

/-- Models `json.loads(v)` for a stored value `v` that the engine has already
checked to start with `[`: the element list of the array, or `none` for a
decode error (including trailing garbage). -/
def jsonLoadsList (s : String) : Option (List (Option String)) :=
  match s.data with
  | '[' :: rest =>
    (match skipWs rest with
     | ']' :: r2 => if (skipWs r2).isEmpty then some [] else none
     | cs =>
       match jsonElems (2 * s.data.length + 8) cs [] with
       | some (elems, r2) => if (skipWs r2).isEmpty then some elems else none
       | none => none)
  | _ => none

/-! ## Data model (`models.py`)

`created_at`, `section`, `sub_section` and `info_tooltip` play no role in the
engine's decisions and are omitted.  `target_gender` / `target_age_range` are
nullable in the schema but the engine dereferences them unconditionally; they
are modelled as the strings the CSV loader stores. -/

structure Question where
  id : String
  sequence : Nat
  text : String
  type : String
  options : Option (List String)
  required : Bool
  target_gender : String
  target_age_range : String
deriving DecidableEq

structure QuestionDependency where
  question_id : String
  depends_on_question_id : String
  depends_on_answer : String
deriving DecidableEq

structure PatientAnswer where
  patient_id : String
  question_id : String
  answer : String
deriving DecidableEq

/-- The request body (`PatientInput`); `previous_answers` is a Python dict,
modelled as an association list in insertion order. -/
structure PatientInput where
  patient_id : String
  gender : String
  age : Int
  previous_answers : List (String × String)
deriving DecidableEq

/-- The `next_question` payload (`QuestionResponse`). -/
structure QuestionOut where
  id : String
  text : String
  type : String
  options : Option (List String)
  required : Bool
deriving DecidableEq

/-- A raised exception: `HTTPException(status, detail)` or any other Python
exception (`AttributeError`, `ValueError`, `JSONDecodeError`) carrying its
message. -/
inductive AppErr where
  | http (status : Nat) (detail : String)
  | pyError (msg : String)
deriving DecidableEq

/-- Models `str(e)`; Starlette renders an `HTTPException` as
`"{status_code}: {detail}"`. -/
def errStr : AppErr → String
  | .http s d => toString s ++ ": " ++ d
  | .pyError m => m

/-- What the endpoint ultimately surfaces: a success body, or an
`HTTPException` escaping the handler. -/
inductive Res where
  | ok (next_question : Option QuestionOut)
  | httpError (status : Nat) (detail : String)
deriving DecidableEq

/-! ## Answer snapshot (Python dict of str to str) -/

/-- Snapshot mapping, modelled as an association list (first match wins on
lookup, in-place replacement on update, like a Python dict). -/
abbrev Answers := List (String × String)

def lookupA : Answers → String → Option String
  | [], _ => none
  | (k, v) :: rest, q => if k = q then some v else lookupA rest q

def setA : Answers → String → String → Answers
  | [], k, v => [(k, v)]
  | (k1, v1) :: rest, k, v =>
    if k1 = k then (k, v) :: rest else (k1, v1) :: setA rest k v

def memA (m : Answers) (k : String) : Bool := (lookupA m k).isSome

/-- Builds `all_answers`: persisted answers for the patient, overlaid by the
incoming `previous_answers`, then `Q1`/`Q2` forced from the request fields. -/
def buildSnapshot (store : List PatientAnswer) (input : PatientInput) : Answers :=
  let existing := (store.filter (fun a => a.patient_id = input.patient_id)).foldl
    (fun m a => setA m a.question_id a.answer) []
  let merged := input.previous_answers.foldl (fun m kv => setA m kv.1 kv.2) existing
  setA (setA merged "Q1" input.gender) "Q2" (toString input.age)

/-! ## `is_age_in_range` -/

/-- Models `is_age_in_range(age, age_range)`.  `none` models an uncaught
`ValueError` (malformed integers, or a `-` split that does not yield exactly
two parts). -/
def is_age_in_range (age : Int) (age_range : String) : Option Bool :=
  if age_range = "Any" then some true
  else if strContains age_range '-' then
    match pySplit '-' age_range with
    | [a, b] =>
      match pyInt a, pyInt b with
      | some mn, some mx => some (decide (mn ≤ age ∧ age ≤ mx))
      | _, _ => none
    | _ => none
  else if strContains age_range '+' then
    match pyInt (removeChar '+' age_range) with
    | some mn => some (decide (age ≥ mn))
    | none => none
  else some false

/-! ## Required-coverage validation pass -/

/-- The Q4 escalation check inside the validation loop's body (its second
`if`), reached unless the required-but-absent `continue` fired. -/
def checkQ4 (m : Answers) (q : Question) : Except AppErr Unit :=
  if q.id = "Q4" ∧ lookupA m "Q3" = some "Yes" then
    match lookupA m q.id with
    | some a =>
      if isEmptyAns a then
        .error (.http 400 ("Required question Q4 (\x27If yes, what type(s) of cancer did they have?\x27) " ++
          "must have at least one option selected since Q3 is \x27Yes\x27."))
      else .ok ()
    | none => .ok ()
  else .ok ()

/-- One iteration of the validation loop over the catalog: the
`required`-and-present emptiness check — with `continue` (skipping the rest
of the body) when a required question is absent — then the Q4 escalation
check. -/
def checkQuestion (m : Answers) (q : Question) : Except AppErr Unit :=
  if q.required then
    match lookupA m q.id with
    | some a =>
      if isEmptyAns a then
        .error (.http 400 ("Required question " ++ q.id ++ " (\x27" ++ q.text ++
          "\x27) must have a valid answer."))
      else checkQ4 m q
    | none => .ok ()
  else checkQ4 m q

def validateRequired (questions : List Question) (m : Answers) : Except AppErr Unit :=
  match questions with
  | [] => .ok ()
  | q :: rest =>
    match checkQuestion m q with
    | .error e => .error e
    | .ok _ => validateRequired rest m

/-! ## Per-answer normalize-and-persist pass -/

/-- Session upsert for one `(patient_id, question_id)` pair: update the first
matching record in place, else append a new one. -/
def upsert (pending : List PatientAnswer) (pid qid ans : String) : List PatientAnswer :=
  match pending with
  | [] => [⟨pid, qid, ans⟩]
  | r :: rest =>
    if r.patient_id = pid ∧ r.question_id = qid then ⟨pid, qid, ans⟩ :: rest
    else r :: upsert rest pid qid ans

/-- Read the stored answer for a `(patient_id, question_id)` pair (the
`filter(...).first()` lookups on `patient_answers`). -/
def storedAnswer : List PatientAnswer → String → String → Option String
  | [], _, _ => none
  | r :: rest, pid, qid =>
    if r.patient_id = pid ∧ r.question_id = qid then some r.answer
    else storedAnswer rest pid qid

/-- Normalization of an empty incoming answer (the `if not answer ...` block):
either a 400 for a required / Q4-escalated question, or the Q5/Q6/type-based
default. -/
def normalizeEmpty (question : Option Question) (m : Answers) (qid : String) :
    Except AppErr String :=
  if (match question with | some q => q.required | none => false) = true ∨
     (qid = "Q4" ∧ lookupA m "Q3" = some "Yes") then
    match question with
    | some q =>
      .error (.http 400 ("Answer for required question " ++ qid ++ " (\x27" ++
        q.text ++ "\x27) cannot be empty"))
    | none => .error (.pyError "\x27NoneType\x27 object has no attribute \x27text\x27")
  else if qid = "Q5" then .ok "No"
  else if qid = "Q6" ∧ lookupA m "Q5" = some "Yes" then .ok (jsonDumps ["Unknown"])
  else
    .ok (match question with
      | some q => if q.type = "Checkbox" then "[]" else ""
      | none => "")

/-- The upsert's serialization expression
`json.dumps(answer.split(",")) if "," in str(answer) and question.type == "Checkbox" else answer`;
with a comma present, `question.type` on a missing catalog row raises
`AttributeError`. -/
def serializeAnswer (question : Option Question) (answer : String) :
    Except AppErr String :=
  if strContains answer ',' then
    match question with
    | some q =>
      .ok (if q.type = "Checkbox" then jsonDumps (pySplit ',' answer) else answer)
    | none => .error (.pyError "\x27NoneType\x27 object has no attribute \x27type\x27")
  else .ok answer

/-- One iteration of the save-or-update loop for an incoming
`(question_id, raw_answer)` pair. -/
def persistOne (questions : List Question) (m : Answers) (pid : String)
    (pending : List PatientAnswer) (qid answer0 : String) :
    Except AppErr (List PatientAnswer) :=
  let question := questions.find? (fun q => q.id = qid)
  let answerE :=
    if isEmptyAns answer0 then normalizeEmpty question m qid else .ok answer0
  match answerE with
  | .error e => .error e
  | .ok answer =>
    match serializeAnswer question answer with
    | .error e => .error e
    | .ok serialized => .ok (upsert pending pid qid serialized)

def persistAnswers (questions : List Question) (m : Answers) (pid : String)
    (pending : List PatientAnswer) : List (String × String) →
    Except AppErr (List PatientAnswer)
  | [] => .ok pending
  | (qid, ans) :: rest =>
    match persistOne questions m pid pending qid ans with
    | .error e => .error e
    | .ok pending1 => persistAnswers questions m pid pending1 rest

/-! ## Q5/Q6 reconciliation pass -/

/-- The two post-pass default blocks: they fire only when the key is present
in `all_answers` (`"Q5" in all_answers and ...`). -/
def reconcileQ5Q6 (m : Answers) (pid : String)
    (pending : List PatientAnswer) : List PatientAnswer :=
  let pending1 :=
    match lookupA m "Q5" with
    | some v => if isEmptyAns v then upsert pending pid "Q5" "No" else pending
    | none => pending
  match lookupA m "Q6", lookupA m "Q5" with
  | some w, some v =>
    if v = "Yes" ∧ (isEmptyAns w = true ∨ w = "[]") then
      upsert pending1 pid "Q6" (jsonDumps ["Unknown"])
    else pending1
  | _, _ => pending1

/-! ## Eligibility and next-question scan -/

/-- Candidate values derived from the snapshot for one dependency's
`depends_on_question_id` (the chained conditional in the scan). -/
def candidatesFor (m : Answers) (depQid : String) :
    Except AppErr (List (Option String)) :=
  match lookupA m depQid with
  | some v =>
    if startsWithBracket v then
      match jsonLoadsList v with
      | some elems => .ok elems
      | none => throw (.pyError ("Expecting value: line 1 column 2 (char 1)"))
    else if strContains v ',' then .ok ((pySplit ',' v).map some)
    else .ok [some v]
  | none => .ok [some ""]

def depSatisfied (m : Answers) (dep : QuestionDependency) : Except AppErr Bool :=
  match candidatesFor m dep.depends_on_question_id with
  | .error e => .error e
  | .ok cands => .ok (cands.contains (some dep.depends_on_answer))

/-- `all(...)` over the dependency edges, with Python's short-circuit. -/
def allDepsSatisfied (m : Answers) : List QuestionDependency → Except AppErr Bool
  | [] => .ok true
  | d :: rest =>
    match depSatisfied m d with
    | .error e => .error e
    | .ok b => if b then allDepsSatisfied m rest else .ok false

/-- One loop iteration of the next-question scan, as a predicate: the
question is returned iff this evaluates to `ok true`; skip conditions give
`ok false`; a malformed age range or stored JSON value raises. -/
def isEligibleE (deps : List QuestionDependency) (m : Answers)
    (gender : String) (age : Int) (q : Question) : Except AppErr Bool :=
  if memA m q.id then .ok false
  else if q.target_gender ≠ "All" ∧ q.target_gender ≠ gender then .ok false
  else
    match is_age_in_range age q.target_age_range with
    | none => .error (.pyError ("invalid literal for int() with base 10: " ++ q.target_age_range))
    | some false => .ok false
    | some true => allDepsSatisfied m (deps.filter (fun d => d.question_id = q.id))

/-- The scan over the sequence-ordered catalog: first question whose
eligibility check passes, `none` when the loop falls through. -/
def nextScan (questions : List Question) (deps : List QuestionDependency)
    (m : Answers) (gender : String) (age : Int) :
    Except AppErr (Option Question) :=
  match questions with
  | [] => .ok none
  | q :: rest =>
    match isEligibleE deps m gender age q with
    | .error e => .error e
    | .ok true => .ok (some q)
    | .ok false => nextScan rest deps m gender age

/-- The response body built for the returned question; `required` is OR-ed
with the Q4 escalation condition. -/
def buildResponse (m : Answers) (q : Question) : QuestionOut :=
  { id := q.id
    text := q.text
    type := displayType q.type
    options := q.options
    required := q.required || (q.id = "Q4" && lookupA m "Q3" = some "Yes") }

/-! ## The endpoint -/

def validGenders : List String := ["Male", "Female", "Intersex"]

/-- Models the whole `/next-question` handler.  `questions` stands for the
`order_by(Question.sequence)` catalog query result, `deps` for the dependency
rows, `store` for the committed `patient_answers` table.  Returns the surfaced
result together with the committed table after the request: session writes are
buffered and take effect at the single `db.commit()`; the trailing
`except Exception` converts every escaping exception — including the 400
`HTTPException`s raised inside — into `HTTPException(500, str(e))`. -/
def get_next_question (questions : List Question) (deps : List QuestionDependency)
    (store : List PatientAnswer) (input : PatientInput) :
    Res × List PatientAnswer :=
  if ¬ (input.gender ∈ validGenders) then
    (.httpError 500 (errStr (.http 400
      "Invalid gender. Must be one of [\x27Male\x27, \x27Female\x27, \x27Intersex\x27]")), store)
  else if input.age < 0 then
    (.httpError 500 (errStr (.http 400 "Age must be non-negative")), store)
  else
    let m := buildSnapshot store input
    match validateRequired questions m with
    | .error e => (.httpError 500 (errStr e), store)
    | .ok () =>
      match persistAnswers questions m input.patient_id store input.previous_answers with
      | .error e => (.httpError 500 (errStr e), store)
      | .ok pending =>
        let committed := reconcileQ5Q6 m input.patient_id pending
        match nextScan questions deps m input.gender input.age with
        | .error e => (.httpError 500 (errStr e), committed)
        | .ok none => (.ok none, committed)
        | .ok (some q) => (.ok (some (buildResponse m q)), committed)

/-! ## Concrete fixtures used by witnesses and counterexamples -/

def q1 : Question :=
  ⟨"Q1", 1, "What is your biological sex?", "Radio",
   some ["Male", "Female", "Intersex"], true, "All", "Any"⟩

def q2 : Question :=
  ⟨"Q2", 2, "What is your age?", "Number", none, true, "All", "Any"⟩

def q3 : Question :=
  ⟨"Q3", 3, "Has anyone in your family had cancer?", "Radio",
   some ["Yes", "No"], true, "All", "Any"⟩

def q4 : Question :=
  ⟨"Q4", 4, "If yes, what type(s) of cancer did they have?", "Checkbox",
   some ["Breast", "Lung", "Other"], false, "All", "Any"⟩

def q5 : Question :=
  ⟨"Q5", 5, "Have you ever been diagnosed with cancer?", "Radio",
   some ["Yes", "No"], false, "All", "Any"⟩

def q6 : Question :=
  ⟨"Q6", 6, "What type(s) of cancer?", "Checkbox",
   some ["Breast", "Lung", "Other"], false, "All", "Any"⟩

def qa : Question := ⟨"QA", 3, "Free text A", "Text", none, false, "All", "Any"⟩

def qb : Question :=
  ⟨"QB", 4, "Radio B", "Radio", some ["x", "y"], false, "All", "Any"⟩

def catalogA : List Question := [q1, q2, q3, q4]

def catalogB : List Question := [q1, q2, q3, q4, q5, q6]

def catalogC : List Question := [q1, q2, qa, qb]

def depsA : List QuestionDependency := [⟨"Q4", "Q3", "Yes"⟩]

def depsC : List QuestionDependency := [⟨"QB", "QA", "x"⟩]

/-! ## General helper lemmas -/

/-- The validation loop raises as soon as any of its iterations raises. -/
lemma validateRequired_error_of_mem (m : Answers) (e : AppErr) :
    ∀ (questions : List Question) (q : Question), q ∈ questions →
      checkQuestion m q = .error e →
      ∃ e2, validateRequired questions m = .error e2 := by
  intro questions
  induction questions with
  | nil => intro q hq _; simp at hq
  | cons qh rest ih =>
    intro q hq he
    cases hh : checkQuestion m qh with
    | error e2 => exact ⟨e2, by rw [validateRequired, hh]⟩
    | ok u =>
      rcases List.mem_cons.mp hq with rfl | hmem
      · rw [hh] at he; exact absurd he (by simp)
      · obtain ⟨e2, h2⟩ := ih q hmem he
        exact ⟨e2, by rw [validateRequired, hh, h2]⟩

lemma splitChar_of_not_contains (sep : Char) (l : List Char)
    (h : l.contains sep = false) : splitChar sep l = [l] := by
  induction l with
  | nil => rfl
  | cons c rest ih =>
    simp only [List.contains_cons, Bool.or_eq_false_iff, beq_eq_false_iff_ne] at h
    have hcs : ¬ (c = sep) := fun hh => h.1 hh.symm
    rw [splitChar, ih h.2]
    simp [hcs]

lemma pySplit_of_not_contains (sep : Char) (s : String)
    (h : strContains s sep = false) : pySplit sep s = [s] := by
  unfold pySplit
  rw [splitChar_of_not_contains sep s.data h]
  rfl

lemma storedAnswer_upsert_self (l : List PatientAnswer) (pid qid a : String) :
    storedAnswer (upsert l pid qid a) pid qid = some a := by
  induction l with
  | nil => simp [upsert, storedAnswer]
  | cons r rest ih =>
    rw [upsert]
    by_cases hc : r.patient_id = pid ∧ r.question_id = qid
    · rw [if_pos hc, storedAnswer, if_pos ⟨rfl, rfl⟩]
    · rw [if_neg hc, storedAnswer, if_neg hc, ih]

/-! ## Claim C7 -/

/-- Claim C7 fails on the code: an unrecognized age-range format that contains
a `-` (or `+`) is not mapped to `false`; `int()` raises `ValueError`, which
escapes `is_age_in_range` (and the handler surfaces it as a 500, not as
"question ineligible").  At `age = 5`, `age_range = "a-b"` the function
raises (modelled `none`) instead of returning `false`. -/
theorem C7_counterexample :
    is_age_in_range 5 "a-b" = none ∧ is_age_in_range 5 "a-b" ≠ some false := by
  decide

/-- Claim C7 amended: only unrecognized formats containing neither `-` nor
`+` (and differing from `"Any"`) are mapped to `false` without error; a
format containing `-` whose two parts do not both parse as integers (or that
does not split into exactly two parts), or one containing `+` whose
`+`-stripped remainder does not parse, raises a `ValueError` that the handler
turns into a server error. -/
theorem C7_amended_unrecognized_fails_closed :
    (∀ (age : Int) (r : String), r ≠ "Any" → strContains r '-' = false →
      strContains r '+' = false → is_age_in_range age r = some false) ∧
    (∀ (age : Int) (r a b : String), r ≠ "Any" → pySplit '-' r = [a, b] →
      (pyInt a = none ∨ pyInt b = none) → is_age_in_range age r = none) ∧
    (∀ (age : Int) (r : String), r ≠ "Any" → strContains r '-' = true →
      (pySplit '-' r).length ≠ 2 → is_age_in_range age r = none) ∧
    (∀ (age : Int) (r : String), r ≠ "Any" → strContains r '-' = false →
      strContains r '+' = true → pyInt (removeChar '+' r) = none →
      is_age_in_range age r = none) := by
  refine ⟨?_, ?_, ?_, ?_⟩
  · intro age r h1 h2 h3
    rw [is_age_in_range, if_neg h1, h2, h3]
    rfl
  · intro age r a b h1 hsplit hm
    have hc : strContains r '-' = true := by
      cases hc : strContains r '-' with
      | true => rfl
      | false => rw [pySplit_of_not_contains _ _ hc] at hsplit; simp at hsplit
    rw [is_age_in_range, if_neg h1, hc]
    rcases hm with hm | hm <;>
      cases ha2 : pyInt a <;> cases hb2 : pyInt b <;> simp_all [hsplit]
  · intro age r h1 h2 hlen
    rw [is_age_in_range, if_neg h1, h2]
    cases hs : pySplit '-' r with
    | nil => rfl
    | cons a tl =>
      cases tl with
      | nil => rfl
      | cons b tl2 =>
        cases tl2 with
        | cons c tl3 => rfl
        | nil => rw [hs] at hlen; simp at hlen
  · intro age r h1 h2 h3 h4
    rw [is_age_in_range, if_neg h1, h2, h3, h4]
    rfl

/-- Witness for the amended C7 theorem at concrete inputs. -/
theorem C7_amended_witness :
    is_age_in_range 5 "bogus" = some false ∧
    is_age_in_range 5 "c-d" = none ∧
    is_age_in_range 5 "1-2-3" = none ∧
    is_age_in_range 5 "x+" = none :=
  ⟨C7_amended_unrecognized_fails_closed.1 5 "bogus" (by decide) (by decide) (by decide),
   C7_amended_unrecognized_fails_closed.2.1 5 "c-d" "c" "d" (by decide) (by decide)
     (by decide),
   C7_amended_unrecognized_fails_closed.2.2.1 5 "1-2-3" (by decide) (by decide)
     (by decide),
   C7_amended_unrecognized_fails_closed.2.2.2 5 "x+" (by decide) (by decide)
     (by decide) (by decide)⟩

/-! ## Claim C8 -/

/-- Claim C8: `"Any"` is always in range; a well-formed `"min-max"` range is
inclusive on both ends; a well-formed `"min+"` range means `age ≥ min`; and
the five concrete evaluations from the spec hold. -/
theorem C8_age_range_semantics :
    (∀ age : Int, is_age_in_range age "Any" = some true) ∧
    (∀ (age mn mx : Int) (r a b : String), r ≠ "Any" →
      pySplit '-' r = [a, b] → pyInt a = some mn → pyInt b = some mx →
      is_age_in_range age r = some (decide (mn ≤ age ∧ age ≤ mx))) ∧
    (∀ (age mn : Int) (r : String), r ≠ "Any" → strContains r '-' = false →
      strContains r '+' = true → pyInt (removeChar '+' r) = some mn →
      is_age_in_range age r = some (decide (age ≥ mn))) ∧
    is_age_in_range 30 "18-65" = some true ∧
    is_age_in_range 17 "18-65" = some false ∧
    is_age_in_range 66 "65+" = some true ∧
    is_age_in_range 10 "65+" = some false ∧
    is_age_in_range 5 "bogus" = some false := by
  refine ⟨?_, ?_, ?_, by decide, by decide, by decide, by decide, by decide⟩
  · intro age; rfl
  · intro age mn mx r a b hr hsplit ha hb
    cases hc : strContains r '-' with
    | false =>
      rw [pySplit_of_not_contains _ _ hc] at hsplit
      simp at hsplit
    | true =>
      rw [is_age_in_range, if_neg hr, hc]
      simp [hsplit, ha, hb]
  · intro age mn r hr h2 h3 h4
    rw [is_age_in_range, if_neg hr, h2, h3, h4]
    rfl

/-- Witness for C8 at the concrete ranges `"18-65"` and `"65+"`. -/
theorem C8_age_range_witness :
    is_age_in_range 30 "18-65" = some (decide ((18 : Int) ≤ 30 ∧ (30 : Int) ≤ 65)) ∧
    is_age_in_range 66 "65+" = some (decide ((66 : Int) ≥ 65)) :=
  ⟨C8_age_range_semantics.2.1 30 18 65 "18-65" "18" "65" (by decide) (by decide)
     (by decide) (by decide),
   C8_age_range_semantics.2.2.1 66 65 "65+" (by decide) (by decide) (by decide)
     (by decide)⟩

/-! ## Claim C1 -/

/-- Claim C1 identifies a code bug: the handler's trailing
`except Exception as e: raise HTTPException(status_code=500, detail=str(e))`
also catches the 400 `HTTPException`s raised for validation failures
(`HTTPException` is an `Exception` subclass), so every validation failure is
re-raised as a 500 server fault whose detail is the stringified 400.  Shown
here for an invalid gender and for a required question submitted empty. -/
theorem C1_validation_errors_become_500 :
    get_next_question catalogA depsA [] ⟨"P1", "Other", 30, []⟩ =
      (.httpError 500
        "400: Invalid gender. Must be one of [\x27Male\x27, \x27Female\x27, \x27Intersex\x27]", []) ∧
    get_next_question catalogA depsA [] ⟨"P2", "Female", 40, [("Q3", "")]⟩ =
      (.httpError 500
        "400: Required question Q3 (\x27Has anyone in your family had cancer?\x27) must have a valid answer.", []) := by
  constructor <;> rfl

/-! ## Claim C2 -/

/-- Claim C2 fails on the code: with `Q3 = "Yes"` and `Q4` entirely absent
from the snapshot, the required-coverage pass raises nothing (its Q4 branch
only checks Q4 when `question.id in all_answers`), the request succeeds, and
Q4 itself is returned as the next question. -/
theorem C2_counterexample :
    validateRequired catalogA
      (buildSnapshot [] ⟨"P1", "Female", 40, [("Q3", "Yes")]⟩) = .ok () ∧
    get_next_question catalogA depsA [] ⟨"P1", "Female", 40, [("Q3", "Yes")]⟩ =
      (.ok (some ⟨"Q4", "If yes, what type(s) of cancer did they have?",
        "multi_select", some ["Breast", "Lung", "Other"], true⟩),
       [⟨"P1", "Q3", "Yes"⟩]) := by
  constructor <;> rfl

/-- Claim C2 amended: with `Q3 = "Yes"`, required-coverage validation fails
exactly when Q4 is *present* in the snapshot with an empty value; when Q4 is
absent the pass does not fail on account of Q4 (Q4 is instead offered as the
next question); and with `Q3 = "No"` and Q4 absent, the Q4 check passes and
the scan skips Q4 whenever Q4 carries its dependency edge on `Q3 = "Yes"`. -/
theorem C2_amended_q4_escalation :
    (∀ (questions : List Question) (m : Answers) (q : Question) (v : String),
      q ∈ questions → q.id = "Q4" → lookupA m "Q3" = some "Yes" →
      lookupA m "Q4" = some v → isEmptyAns v = true →
      ∃ e, validateRequired questions m = .error e) ∧
    (∀ (m : Answers) (q : Question), q.id = "Q4" → lookupA m "Q4" = none →
      checkQuestion m q = .ok ()) ∧
    (∀ (deps : List QuestionDependency) (m : Answers) (gender : String)
      (age : Int) (q : Question), q.id = "Q4" → memA m "Q4" = false →
      q.target_gender = "All" →
      is_age_in_range age q.target_age_range = some true →
      deps.filter (fun d => d.question_id = "Q4") = [⟨"Q4", "Q3", "Yes"⟩] →
      lookupA m "Q3" = some "No" →
      isEligibleE deps m gender age q = .ok false) := by
  refine ⟨?_, ?_, ?_⟩
  · intro questions m q v hmem hid h3 h4 he
    have herr : ∃ e, checkQuestion m q = .error e := by
      cases hreq : q.required with
      | true =>
        refine ⟨.http 400 ("Required question " ++ q.id ++ " (\x27" ++ q.text ++
          "\x27) must have a valid answer."), ?_⟩
        rw [checkQuestion, hreq, if_pos rfl, hid, h4]
        simp [he]
      | false =>
        refine ⟨.http 400 ("Required question Q4 (\x27If yes, what type(s) of cancer did they have?\x27) " ++
          "must have at least one option selected since Q3 is \x27Yes\x27."), ?_⟩
        rw [checkQuestion, hreq]
        simp only [Bool.false_eq_true, if_false]
        rw [checkQ4, if_pos ⟨hid, h3⟩, hid, h4]
        simp [he]
    obtain ⟨e, he2⟩ := herr
    exact validateRequired_error_of_mem m e questions q hmem he2
  · intro m q hid h4
    cases hreq : q.required with
    | true => rw [checkQuestion, hreq, if_pos rfl, hid, h4]
    | false =>
      rw [checkQuestion, hreq]
      simp only [Bool.false_eq_true, if_false]
      rw [checkQ4]
      by_cases hc : q.id = "Q4" ∧ lookupA m "Q3" = some "Yes"
      · rw [if_pos hc, hid, h4]
      · rw [if_neg hc]
  · intro deps m gender age q hid hmem hg hage hfilter h3
    simp only [isEligibleE, hid, hmem, Bool.false_eq_true, if_false, hage, hg]
    rw [if_neg (by simp [hg])]
    rw [hfilter]
    simp [allDepsSatisfied, depSatisfied, candidatesFor, h3, startsWithBracket,
      strContains]

/-- Witness for the amended C2 theorem at concrete snapshots. -/
theorem C2_amended_witness :
    (∃ e, validateRequired catalogA [("Q3", "Yes"), ("Q4", "")] = .error e) ∧
    checkQuestion [("Q3", "Yes")] q4 = .ok () ∧
    isEligibleE depsA [("Q3", "No"), ("Q1", "Female"), ("Q2", "40")]
      "Female" 40 q4 = .ok false :=
  ⟨C2_amended_q4_escalation.1 catalogA _ q4 "" (by decide) rfl (by decide)
     (by decide) (by decide),
   C2_amended_q4_escalation.2.1 _ q4 rfl (by decide),
   C2_amended_q4_escalation.2.2 depsA _ "Female" 40 q4 rfl (by decide) rfl
     (by decide) (by decide) (by decide)⟩

/-! ## Claim C3 -/

/-- Claim C3 fails on the code: the reconciliation blocks are guarded by
`"Q5" in all_answers` / `"Q6" in all_answers`, so a key *missing* from the
merged snapshot is never forced.  Here the catalog contains Q5 and Q6, the
request carries no answers, Q5 is absent from the snapshot — yet the request
succeeds with the persisted store left empty (no forced `Q5 = "No"`). -/
theorem C3_counterexample :
    get_next_question catalogB depsA [] ⟨"P1", "Male", 30, []⟩ =
      (.ok (some ⟨"Q3", "Has anyone in your family had cancer?", "radio",
        some ["Yes", "No"], true⟩), []) := by
  rfl

/-- Claim C3 amended: the post-pass reconciliation forces `Q5` to `"No"` only
when Q5 is *present* in the merged snapshot with an empty value, and forces
`Q6` to `["Unknown"]` only when Q5 equals `"Yes"` and Q6 is *present* with an
empty or `"[]"` value; a key absent from the snapshot is left untouched.  The
forcing does apply when Q5/Q6 reached the snapshot from persisted answers
rather than the incoming payload, since the guards read the merged
snapshot. -/
theorem C3_amended_reconciliation :
    (∀ (m : Answers) (pid : String) (pending : List PatientAnswer) (v : String),
      lookupA m "Q5" = some v → isEmptyAns v = true →
      storedAnswer (reconcileQ5Q6 m pid pending) pid "Q5" = some "No") ∧
    (∀ (m : Answers) (pid : String) (pending : List PatientAnswer) (w : String),
      lookupA m "Q5" = some "Yes" → lookupA m "Q6" = some w →
      (isEmptyAns w = true ∨ w = "[]") →
      storedAnswer (reconcileQ5Q6 m pid pending) pid "Q6" =
        some (jsonDumps ["Unknown"])) ∧
    (∀ (m : Answers) (pid : String) (pending : List PatientAnswer),
      lookupA m "Q5" = none → reconcileQ5Q6 m pid pending = pending) ∧
    (∀ (m : Answers) (pid : String) (pending : List PatientAnswer),
      lookupA m "Q5" = some "Yes" → lookupA m "Q6" = none →
      reconcileQ5Q6 m pid pending = pending) := by
  refine ⟨?_, ?_, ?_, ?_⟩
  · intro m pid pending v h5 he
    cases h6 : lookupA m "Q6" with
    | none => simp [reconcileQ5Q6, h5, h6, he, storedAnswer_upsert_self]
    | some w =>
      have hv : ¬(v = "Yes" ∧ (isEmptyAns w = true ∨ w = "[]")) := by
        rintro ⟨rfl, _⟩; exact absurd he (by decide)
      simp [reconcileQ5Q6, h5, h6, he, hv, storedAnswer_upsert_self]
  · intro m pid pending w h5 h6 hw
    have h5e : isEmptyAns "Yes" = false := by decide
    simp [reconcileQ5Q6, h5, h6, h5e, hw, storedAnswer_upsert_self]
  · intro m pid pending h5
    cases h6 : lookupA m "Q6" <;> simp [reconcileQ5Q6, h5, h6]
  · intro m pid pending h5 h6
    simp [reconcileQ5Q6, h5, h6, show isEmptyAns "Yes" = false by decide]

/-- Witness for the amended C3 theorem at concrete snapshots. -/
theorem C3_amended_witness :
    storedAnswer (reconcileQ5Q6 [("Q5", "")] "P1" []) "P1" "Q5" = some "No" ∧
    storedAnswer (reconcileQ5Q6 [("Q5", "Yes"), ("Q6", "[]")] "P1" []) "P1" "Q6" =
      some (jsonDumps ["Unknown"]) ∧
    reconcileQ5Q6 [("Q1", "Male")] "P1" [] = [] ∧
    reconcileQ5Q6 [("Q5", "Yes")] "P1" [] = [] :=
  ⟨C3_amended_reconciliation.1 _ "P1" [] "" (by decide) (by decide),
   C3_amended_reconciliation.2.1 _ "P1" [] "[]" (by decide) (by decide)
     (Or.inr rfl),
   C3_amended_reconciliation.2.2.1 _ "P1" [] (by decide),
   C3_amended_reconciliation.2.2.2 _ "P1" [] (by decide) (by decide)⟩

/-! ## Claim C6 -/

/-- A question on which the validation pass raises: present in the snapshot
with an empty value, and either `required` or Q4-escalated (the same loop
also hosts the Q4 escalation check; claim C2 covers that case). -/
def badQuestion (m : Answers) (q : Question) : Prop :=
  ∃ v, lookupA m q.id = some v ∧ isEmptyAns v = true ∧
    (q.required = true ∨ (q.id = "Q4" ∧ lookupA m "Q3" = some "Yes"))

lemma checkQuestion_ok_iff (m : Answers) (q : Question) :
    checkQuestion m q = .ok () ↔ ¬ badQuestion m q := by
  unfold checkQuestion badQuestion
  cases hreq : q.required with
  | true =>
    cases hl : lookupA m q.id with
    | none => simp [hl]
    | some a =>
      cases he : isEmptyAns a with
      | true => simp [hl, he, hreq]
      | false =>
        unfold checkQ4
        by_cases hc : q.id = "Q4" ∧ lookupA m "Q3" = some "Yes"
        · have hl4 : lookupA m "Q4" = some a := hc.1 ▸ hl
          simp [hl, hl4, he, hc, hreq]
        · simp [hl, he, hc, hreq]
  | false =>
    unfold checkQ4
    by_cases hc : q.id = "Q4" ∧ lookupA m "Q3" = some "Yes"
    · cases hl : lookupA m q.id with
      | none =>
        have hl4 : lookupA m "Q4" = none := hc.1 ▸ hl
        simp [hl, hl4, hc, hreq]
      | some a =>
        have hl4 : lookupA m "Q4" = some a := hc.1 ▸ hl
        cases he : isEmptyAns a with
        | true => simp [hl, hl4, he, hc, hreq]
        | false => simp [hl, hl4, he, hc, hreq]
    · simp [hc, hreq]

lemma validateRequired_ok_iff (questions : List Question) (m : Answers) :
    validateRequired questions m = .ok () ↔
      ∀ q ∈ questions, checkQuestion m q = .ok () := by
  induction questions with
  | nil => simp [validateRequired]
  | cons qh rest ih =>
    rw [validateRequired]
    cases hh : checkQuestion m qh with
    | error e => simp [List.forall_mem_cons, hh]
    | ok u =>
      cases u
      simp [List.forall_mem_cons, hh, ih]

/-- Claim C6: the required-coverage pass succeeds iff no question of the
catalog is present in the snapshot with an empty value while being required
(or Q4-escalated, the other check hosted by the same loop); in particular a
required question present with an empty value makes the pass fail, one
present with a non-empty value never does, and one absent from the snapshot
never does. -/
theorem C6_required_coverage (questions : List Question) (m : Answers) :
    (validateRequired questions m = .ok () ↔
      ∀ q ∈ questions, ¬ badQuestion m q) ∧
    (∀ q ∈ questions, q.required = true →
      ∀ v, lookupA m q.id = some v → isEmptyAns v = true →
      ∃ e, validateRequired questions m = .error e) := by
  have hiff : validateRequired questions m = .ok () ↔
      ∀ q ∈ questions, ¬ badQuestion m q := by
    rw [validateRequired_ok_iff]
    exact ⟨fun h q hq => (checkQuestion_ok_iff m q).mp (h q hq),
           fun h q hq => (checkQuestion_ok_iff m q).mpr (h q hq)⟩
  refine ⟨hiff, ?_⟩
  intro q hq hreq v hv he
  have hbad : badQuestion m q := ⟨v, hv, he, Or.inl hreq⟩
  cases hvr : validateRequired questions m with
  | error e => exact ⟨e, rfl⟩
  | ok u =>
    cases u
    exact absurd hbad (hiff.mp hvr q hq)

/-- Witness for C6: a required question (`Q3`) submitted empty fails the
pass. -/
theorem C6_witness :
    ∃ e, validateRequired catalogA [("Q3", "")] = .error e :=
  (C6_required_coverage catalogA [("Q3", "")]).2 q3 (by decide) rfl ""
    (by decide) (by decide)

/-! ## Claim C5 -/

lemma isEligibleE_ok_true_not_mem {deps : List QuestionDependency} {m : Answers}
    {gender : String} {age : Int} {q : Question}
    (h : isEligibleE deps m gender age q = .ok true) : memA m q.id = false := by
  cases hm : memA m q.id with
  | false => rfl
  | true => rw [isEligibleE, hm] at h; simp at h

lemma nextScan_some_decomp (deps : List QuestionDependency) (m : Answers)
    (gender : String) (age : Int) :
    ∀ (questions : List Question) (q : Question),
      nextScan questions deps m gender age = .ok (some q) →
      ∃ l1 l2, questions = l1 ++ q :: l2 ∧
        (∀ q2 ∈ l1, isEligibleE deps m gender age q2 = .ok false) ∧
        isEligibleE deps m gender age q = .ok true := by
  intro questions
  induction questions with
  | nil => intro q h; simp [nextScan] at h
  | cons qh rest ih =>
    intro q h
    cases he : isEligibleE deps m gender age qh with
    | error e => simp [nextScan, he] at h
    | ok b =>
      cases b with
      | true =>
        simp only [nextScan, he] at h
        have hq : qh = q := by simpa using h
        subst hq
        exact ⟨[], rest, rfl, by simp, he⟩
      | false =>
        simp only [nextScan, he] at h
        obtain ⟨l1, l2, hdecomp, hall, htrue⟩ := ih q h
        refine ⟨qh :: l1, l2, by rw [hdecomp, List.cons_append], ?_, htrue⟩
        intro q2 hq2
        rcases List.mem_cons.mp hq2 with rfl | hmem
        · exact he
        · exact hall q2 hmem

lemma nextScan_none_all (deps : List QuestionDependency) (m : Answers)
    (gender : String) (age : Int) :
    ∀ questions, nextScan questions deps m gender age = .ok none →
      ∀ q ∈ questions, isEligibleE deps m gender age q = .ok false := by
  intro questions
  induction questions with
  | nil => intro _ q hq; simp at hq
  | cons qh rest ih =>
    intro h q hq
    cases he : isEligibleE deps m gender age qh with
    | error e => simp [nextScan, he] at h
    | ok b =>
      cases b with
      | true => simp [nextScan, he] at h
      | false =>
        simp only [nextScan, he] at h
        rcases List.mem_cons.mp hq with rfl | hmem
        · exact he
        · exact ih h q hmem

/-- Claim C5: on a catalog sorted by strictly increasing `sequence`, the scan
returns exactly the first eligible question — everything with a smaller
sequence evaluates ineligible — returns `none` only when every question is
ineligible, and never returns a question already present in the snapshot (so
repeating a request with no new answers cannot re-ask an answered
question). -/
theorem C5_next_question_scan (questions : List Question)
    (deps : List QuestionDependency) (m : Answers) (gender : String) (age : Int)
    (hsorted : questions.Pairwise (fun a b => a.sequence < b.sequence)) :
    (∀ q, nextScan questions deps m gender age = .ok (some q) →
      q ∈ questions ∧ isEligibleE deps m gender age q = .ok true ∧
      memA m q.id = false ∧
      (∀ q2 ∈ questions, q2.sequence < q.sequence →
        isEligibleE deps m gender age q2 = .ok false)) ∧
    (nextScan questions deps m gender age = .ok none →
      ∀ q ∈ questions, isEligibleE deps m gender age q = .ok false) := by
  constructor
  · intro q h
    obtain ⟨l1, l2, hdecomp, hall, htrue⟩ :=
      nextScan_some_decomp deps m gender age questions q h
    subst hdecomp
    refine ⟨by simp, htrue, isEligibleE_ok_true_not_mem htrue, ?_⟩
    intro q2 hq2 hlt
    rcases List.mem_append.mp hq2 with h1 | h2
    · exact hall q2 h1
    · rcases List.mem_cons.mp h2 with rfl | h3
      · exact absurd hlt (lt_irrefl _)
      · have hp := (List.pairwise_append.mp hsorted).2.1
        have hgt := (List.pairwise_cons.mp hp).1 q2 h3
        omega
  · exact nextScan_none_all deps m gender age questions

/-- Witness for C5: on the concrete catalog the scan returns `Q4`, which is
eligible and unanswered. -/
theorem C5_scan_witness :
    isEligibleE depsA
      (buildSnapshot [] ⟨"P1", "Female", 40, [("Q3", "Yes")]⟩) "Female" 40 q4 =
      .ok true ∧
    memA (buildSnapshot [] ⟨"P1", "Female", 40, [("Q3", "Yes")]⟩) "Q4" = false := by
  have h := (C5_next_question_scan catalogA depsA
    (buildSnapshot [] ⟨"P1", "Female", 40, [("Q3", "Yes")]⟩) "Female" 40
    (by decide)).1 q4 (by rfl)
  exact ⟨h.2.1, h.2.2.1⟩

/-! ## Claim C4 -/

/-- Claim C4 fails on the code: `db.commit()` runs *before* the next-question
scan, so a failure during the scan (here: `json.loads` on the just-persisted
malformed value `"[abc"` read back for dependency evaluation) surfaces an
error *after* the request's writes were committed.  The request ends in an
error, yet the persisted answers changed from `[]` to the committed batch. -/
theorem C4_counterexample :
    get_next_question catalogC depsC [] ⟨"P1", "Male", 30, [("QA", "[abc")]⟩ =
      (.httpError 500 "Expecting value: line 1 column 2 (char 1)",
       [⟨"P1", "QA", "[abc"⟩]) ∧
    (get_next_question catalogC depsC [] ⟨"P1", "Male", 30, [("QA", "[abc")]⟩).2 ≠
      [] := by
  refine ⟨rfl, ?_⟩
  decide

/-- Claim C4 amended: each request issues a single commit covering all of its
writes — the final store is either untouched or exactly the one committed
batch (never a strict part of it); every failure *before* the commit (gender
or age validation, required-coverage, the persist pass) leaves the store
unchanged; but a failure in the post-commit scan surfaces an error with the
writes already persisted. -/
theorem C4_amended_single_commit (questions : List Question)
    (deps : List QuestionDependency) (store : List PatientAnswer)
    (input : PatientInput) :
    (input.gender ∉ validGenders →
      (get_next_question questions deps store input).2 = store) ∧
    (input.age < 0 →
      (get_next_question questions deps store input).2 = store) ∧
    (∀ e, validateRequired questions (buildSnapshot store input) = .error e →
      (get_next_question questions deps store input).2 = store) ∧
    (∀ e, persistAnswers questions (buildSnapshot store input) input.patient_id
        store input.previous_answers = .error e →
      (get_next_question questions deps store input).2 = store) ∧
    ((get_next_question questions deps store input).2 = store ∨
     ∃ pending, persistAnswers questions (buildSnapshot store input)
         input.patient_id store input.previous_answers = .ok pending ∧
       (get_next_question questions deps store input).2 =
         reconcileQ5Q6 (buildSnapshot store input) input.patient_id pending) := by
  by_cases hg : input.gender ∈ validGenders
  · by_cases ha : input.age < 0
    · have h2 : (get_next_question questions deps store input).2 = store := by
        rw [get_next_question, if_neg (not_not_intro hg), if_pos ha]
      exact ⟨fun _ => h2, fun _ => h2, fun _ _ => h2, fun _ _ => h2, Or.inl h2⟩
    · cases hv : validateRequired questions (buildSnapshot store input) with
      | error e =>
        have h2 : (get_next_question questions deps store input).2 = store := by
          simp only [get_next_question, if_neg (not_not_intro hg), if_neg ha, hv]
        refine ⟨fun _ => h2, fun _ => h2, fun _ _ => h2, fun _ _ => h2, Or.inl h2⟩
      | ok u =>
        cases u
        cases hp : persistAnswers questions (buildSnapshot store input)
            input.patient_id store input.previous_answers with
        | error e =>
          have h2 : (get_next_question questions deps store input).2 = store := by
            simp only [get_next_question, if_neg (not_not_intro hg), if_neg ha,
              hv, hp]
          refine ⟨fun _ => h2, fun _ => h2, fun _ _ => h2,
            fun e2 he2 => h2, Or.inl h2⟩
        | ok pending =>
          have h2 : (get_next_question questions deps store input).2 =
              reconcileQ5Q6 (buildSnapshot store input) input.patient_id pending := by
            simp only [get_next_question, if_neg (not_not_intro hg), if_neg ha,
              hv, hp]
            cases nextScan questions deps (buildSnapshot store input)
                input.gender input.age with
            | error e => rfl
            | ok o => cases o <;> rfl
          refine ⟨fun hn => absurd hg hn, fun hn => absurd hn ha,
            fun e2 he2 => absurd he2 (by simp),
            fun e2 he2 => absurd he2 (by simp),
            Or.inr ⟨pending, rfl, h2⟩⟩
  · have h2 : (get_next_question questions deps store input).2 = store := by
      rw [get_next_question, if_pos hg]
    exact ⟨fun _ => h2, fun _ => h2, fun _ _ => h2, fun _ _ => h2, Or.inl h2⟩

/-- Witness for the amended C4 theorem: an invalid gender leaves a non-empty
store untouched. -/
theorem C4_amended_witness :
    (get_next_question catalogA depsA [⟨"P9", "Q3", "No"⟩]
      ⟨"P9", "X", 30, [("Q3", "")]⟩).2 = [⟨"P9", "Q3", "No"⟩] :=
  (C4_amended_single_commit catalogA depsA [⟨"P9", "Q3", "No"⟩]
    ⟨"P9", "X", 30, [("Q3", "")]⟩).1 (by decide)

/-! ## Claim C10 -/

lemma persistOne_unknown_comma (questions : List Question) (m : Answers)
    (pid : String) (pending : List PatientAnswer) (qid ans : String)
    (hfind : questions.find? (fun q => q.id = qid) = none)
    (hne : isEmptyAns ans = false) (hc : strContains ans ',' = true) :
    persistOne questions m pid pending qid ans =
      .error (.pyError "\x27NoneType\x27 object has no attribute \x27type\x27") := by
  simp [persistOne, hfind, hne, hc, serializeAnswer]

lemma persistOne_unknown_nocomma (questions : List Question) (m : Answers)
    (pid : String) (pending : List PatientAnswer) (qid ans : String)
    (hfind : questions.find? (fun q => q.id = qid) = none)
    (hne : isEmptyAns ans = false) (hc : strContains ans ',' = false) :
    persistOne questions m pid pending qid ans =
      .ok (upsert pending pid qid ans) := by
  simp [persistOne, hfind, hne, hc, serializeAnswer]

/-- If some incoming pair fails `persistOne` regardless of the session state,
the whole persist pass fails. -/
lemma persistAnswers_error_of_mem :
    ∀ (pairs : List (String × String)) (questions : List Question) (m : Answers)
      (pid : String) (pending : List PatientAnswer) (qid ans : String),
      (qid, ans) ∈ pairs →
      (∀ pending2, ∃ e, persistOne questions m pid pending2 qid ans = .error e) →
      ∃ e, persistAnswers questions m pid pending pairs = .error e := by
  intro pairs
  induction pairs with
  | nil => intro _ _ _ _ _ _ hmem _; simp at hmem
  | cons hd tl ih =>
    intro questions m pid pending qid ans hmem hfail
    obtain ⟨q0, a0⟩ := hd
    cases hp : persistOne questions m pid pending q0 a0 with
    | error e => exact ⟨e, by rw [persistAnswers, hp]⟩
    | ok pending1 =>
      rcases List.mem_cons.mp hmem with heq | hmem2
      · obtain ⟨rfl, rfl⟩ := Prod.mk.injEq .. |>.mp heq
        obtain ⟨e, he⟩ := hfail pending
        exact absurd (he.symm.trans hp) (by simp)
      · obtain ⟨e, hrest⟩ := ih questions m pid pending1 qid ans hmem2 hfail
        exact ⟨e, by simp only [persistAnswers, hp]; exact hrest⟩

/-- Claim C10: the persist pass assumes every incoming `question_id` is in
the catalog.  For an unknown id with a non-empty comma-containing answer, the
serialization expression dereferences `question.type` on `None`
(`AttributeError`), and the whole request aborts as a server error with the
store untouched (the abort happens before the commit); an unknown id with a
comma-free non-empty answer is persisted as-is. -/
theorem C10_unknown_question_id :
    (∀ (questions : List Question) (deps : List QuestionDependency)
      (store : List PatientAnswer) (input : PatientInput) (qid ans : String),
      (qid, ans) ∈ input.previous_answers →
      questions.find? (fun q => q.id = qid) = none →
      isEmptyAns ans = false → strContains ans ',' = true →
      ∃ d, get_next_question questions deps store input =
        (.httpError 500 d, store)) ∧
    (∀ (questions : List Question) (m : Answers) (pid : String)
      (pending : List PatientAnswer) (qid ans : String),
      questions.find? (fun q => q.id = qid) = none →
      isEmptyAns ans = false → strContains ans ',' = true →
      persistOne questions m pid pending qid ans =
        .error (.pyError "\x27NoneType\x27 object has no attribute \x27type\x27")) ∧
    (∀ (questions : List Question) (m : Answers) (pid : String)
      (pending : List PatientAnswer) (qid ans : String),
      questions.find? (fun q => q.id = qid) = none →
      isEmptyAns ans = false → strContains ans ',' = false →
      persistOne questions m pid pending qid ans =
        .ok (upsert pending pid qid ans)) := by
  refine ⟨?_, persistOne_unknown_comma, persistOne_unknown_nocomma⟩
  intro questions deps store input qid ans hmem hfind hne hc
  by_cases hg : input.gender ∈ validGenders
  · by_cases ha : input.age < 0
    · exact ⟨errStr (.http 400 "Age must be non-negative"),
        by rw [get_next_question, if_neg (not_not_intro hg), if_pos ha]⟩
    · cases hv : validateRequired questions (buildSnapshot store input) with
      | error e =>
        refine ⟨errStr e, ?_⟩
        simp only [get_next_question, if_neg (not_not_intro hg), if_neg ha, hv]
      | ok u =>
        cases u
        obtain ⟨e, hp⟩ := persistAnswers_error_of_mem input.previous_answers
          questions (buildSnapshot store input) input.patient_id store qid ans
          hmem (fun pending2 =>
            ⟨_, persistOne_unknown_comma questions _ _ pending2 qid ans hfind hne hc⟩)
        refine ⟨errStr e, ?_⟩
        simp only [get_next_question, if_neg (not_not_intro hg), if_neg ha, hv, hp]
  · exact ⟨errStr (.http 400
        "Invalid gender. Must be one of [\x27Male\x27, \x27Female\x27, \x27Intersex\x27]"),
      by rw [get_next_question, if_pos hg]⟩

/-- Witness for C10: the unknown id `QX` with answer `"a,b"` aborts the
request as a 500 with nothing persisted, while `"a"` would be persisted
as-is. -/
theorem C10_witness :
    (∃ d, get_next_question catalogA depsA []
      ⟨"P1", "Male", 30, [("QX", "a,b")]⟩ = (.httpError 500 d, [])) ∧
    persistOne catalogA [] "P1" [] "QX" "a" = .ok (upsert [] "P1" "QX" "a") :=
  ⟨C10_unknown_question_id.1 catalogA depsA [] ⟨"P1", "Male", 30, [("QX", "a,b")]⟩
     "QX" "a,b" (by decide) (by decide) (by decide) (by decide),
   C10_unknown_question_id.2.2 catalogA [] "P1" [] "QX" "a" (by decide)
     (by decide) (by decide)⟩

/-! ## Claim C9 -/

/-- A character that JSON-escapes to itself: printable ASCII other than the
quote and the backslash.  Checkbox answers are built from this range. -/
def plainChar (c : Char) : Bool :=
  (0x20 ≤ c.toNat && c.toNat ≤ 0x7e) && !(c = '"') && !(c = '\\')

lemma escChar_plain {c : Char} (h : plainChar c = true) : escChar c = [c] := by
  simp only [plainChar, Bool.and_eq_true, Bool.not_eq_eq_eq_not, Bool.not_true,
    decide_eq_false_iff_not, decide_eq_true_eq] at h
  obtain ⟨⟨⟨hlo, hhi⟩, hq⟩, hb⟩ := h
  have hn : c ≠ '\n' := by intro hh; subst hh; exact absurd hlo (by decide)
  have hr : c ≠ '\x0d' := by intro hh; subst hh; exact absurd hlo (by decide)
  have ht : c ≠ '\t' := by intro hh; subst hh; exact absurd hlo (by decide)
  have h8 : c ≠ '\x08' := by intro hh; subst hh; exact absurd hlo (by decide)
  have h12 : c ≠ '\x0c' := by intro hh; subst hh; exact absurd hlo (by decide)
  rw [escChar, if_neg hq, if_neg hb, if_neg hn, if_neg hr, if_neg ht,
    if_neg h8, if_neg h12,
    if_pos (by simp only [Bool.and_eq_true, decide_eq_true_eq]; exact ⟨hlo, hhi⟩)]

lemma flatten_map_escChar_plain :
    ∀ l : List Char, (∀ c ∈ l, plainChar c = true) →
      (l.map escChar).flatten = l := by
  intro l
  induction l with
  | nil => intro _; rfl
  | cons c tl ih =>
    intro h
    rw [List.map_cons, List.flatten_cons, escChar_plain (h c (List.mem_cons_self ..)),
      ih (fun c2 hc2 => h c2 (List.mem_cons_of_mem _ hc2))]
    rfl

lemma dumpsStr_plain {s : String} (h : ∀ c ∈ s.data, plainChar c = true) :
    jsonDumpsStrChars s = '"' :: s.data ++ ['"'] := by
  unfold jsonDumpsStrChars
  rw [flatten_map_escChar_plain s.data h]

lemma parseJStrGo_plain :
    ∀ (l acc rest : List Char), (∀ c ∈ l, plainChar c = true) →
      parseJStrGo (l ++ '"' :: rest) acc = some (⟨acc.reverse ++ l⟩, rest) := by
  intro l
  induction l with
  | nil => intro acc rest _; simp [parseJStrGo.eq_def]
  | cons c l' ih =>
    intro acc rest h
    have hc := h c (List.mem_cons_self ..)
    simp only [plainChar, Bool.and_eq_true, Bool.not_eq_eq_eq_not, Bool.not_true,
      decide_eq_false_iff_not, decide_eq_true_eq] at hc
    obtain ⟨⟨⟨hlo, _⟩, hq⟩, hb⟩ := hc
    have hctl : ¬ c.toNat < 0x20 := by omega
    rw [List.cons_append, parseJStrGo.eq_def]
    simp only [if_neg hq, if_neg hb, if_neg hctl]
    rw [ih (c :: acc) rest (fun c2 hc2 => h c2 (List.mem_cons_of_mem _ hc2))]
    simp

lemma parseJStr_plain {p : String} (tail : List Char)
    (h : ∀ c ∈ p.data, plainChar c = true) :
    parseJStr (p.data ++ '"' :: tail) = some (p, tail) := by
  rw [parseJStr, parseJStrGo_plain p.data [] tail h]
  rfl

/-- Characters of any piece produced by `splitChar` come from the input. -/
lemma splitChar_chars_subset (sep : Char) :
    ∀ (l : List Char) (part : List Char), part ∈ splitChar sep l →
      ∀ c ∈ part, c ∈ l := by
  intro l
  induction l with
  | nil =>
    intro part hp c hc
    simp [splitChar] at hp
    subst hp
    simp at hc
  | cons x rest ih =>
    intro part hp c hc
    rw [splitChar] at hp
    cases hs : splitChar sep rest with
    | nil =>
      simp only [hs] at hp
      simp only [List.mem_singleton] at hp
      subst hp
      rcases List.mem_singleton.mp hc with rfl
      exact List.mem_cons_self ..
    | cons p ps =>
      simp only [hs] at hp
      by_cases hx : x = sep
      · rw [if_pos hx] at hp
        rcases List.mem_cons.mp hp with rfl | hp2
        · simp at hc
        · exact List.mem_cons_of_mem _ (ih part (hs ▸ hp2) c hc)
      · rw [if_neg hx] at hp
        rcases List.mem_cons.mp hp with rfl | hp2
        · rcases List.mem_cons.mp hc with rfl | hc2
          · exact List.mem_cons_self ..
          · exact List.mem_cons_of_mem _ (ih p (hs ▸ List.mem_cons_self ..) c hc2)
        · exact List.mem_cons_of_mem _
            (ih part (hs ▸ List.mem_cons_of_mem _ hp2) c hc)

lemma pySplit_plain {s : String} (sep : Char)
    (h : ∀ c ∈ s.data, plainChar c = true) :
    ∀ p ∈ pySplit sep s, ∀ c ∈ p.data, plainChar c = true := by
  intro p hp c hc
  unfold pySplit at hp
  obtain ⟨part, hpart, rfl⟩ := List.mem_map.mp hp
  exact h c (splitChar_chars_subset sep s.data part hpart c hc)

lemma sepJoin_cons_cons (x y : List Char) (xs : List (List Char)) :
    sepJoin (x :: y :: xs) = x ++ ',' :: ' ' :: sepJoin (y :: xs) := rfl

lemma sepJoin_enc_head (p : String) (parts : List String) :
    ∃ y, sepJoin ((p :: parts).map jsonDumpsStrChars) = '"' :: y := by
  cases parts with
  | nil => exact ⟨_, rfl⟩
  | cons p2 tl => exact ⟨_, rfl⟩

lemma sepJoin_enc_length :
    ∀ parts : List String,
      parts.length ≤ (sepJoin (parts.map jsonDumpsStrChars)).length := by
  intro parts
  induction parts with
  | nil => exact Nat.zero_le _
  | cons p tl ih =>
    cases tl with
    | nil => simp [sepJoin, jsonDumpsStrChars]
    | cons p2 tl2 =>
      rw [List.map_cons, List.map_cons, sepJoin_cons_cons]
      simp only [List.length_cons, List.length_append]
      have h1 : 1 ≤ (jsonDumpsStrChars p).length := by
        simp [jsonDumpsStrChars]
      simp only [List.map_cons] at ih
      simp only [List.length_cons] at ih ⊢
      omega

lemma skipWs_quote (y : List Char) : skipWs ('"' :: y) = '"' :: y := by
  simp [skipWs, List.dropWhile_cons]

lemma skipWs_comma (y : List Char) : skipWs (',' :: y) = ',' :: y := by
  simp [skipWs, List.dropWhile_cons]

lemma skipWs_rbracket (y : List Char) : skipWs (']' :: y) = ']' :: y := by
  simp [skipWs, List.dropWhile_cons]

lemma skipWs_space (y : List Char) : skipWs (' ' :: y) = skipWs y := by
  simp [skipWs, List.dropWhile_cons]

/-- Walking the encoded elements of a non-empty plain-string list: every
element is read back as the string it encodes. -/
lemma jsonElems_enc :
    ∀ (parts : List String) (fuel : Nat) (acc : List (Option String))
      (cs rest : List Char),
      parts ≠ [] →
      (∀ p ∈ parts, ∀ c ∈ p.data, plainChar c = true) →
      parts.length ≤ fuel →
      skipWs cs = sepJoin (parts.map jsonDumpsStrChars) ++ ']' :: rest →
      jsonElems fuel cs acc = some (acc.reverse ++ parts.map some, rest) := by
  intro parts
  induction parts with
  | nil => intro _ _ _ _ hne _ _ _; exact absurd rfl hne
  | cons p tl ih =>
    intro fuel acc cs rest _ hplain hfuel hskip
    have hp : ∀ c ∈ p.data, plainChar c = true :=
      hplain p (List.mem_cons_self ..)
    cases fuel with
    | zero => simp at hfuel
    | succ f =>
      rw [jsonElems]
      cases tl with
      | nil =>
        have hskip2 : skipWs cs = '"' :: (p.data ++ '"' :: ']' :: rest) := by
          rw [hskip, List.map_cons, List.map_nil]
          rw [show sepJoin [jsonDumpsStrChars p] = jsonDumpsStrChars p from rfl]
          rw [dumpsStr_plain hp]
          simp
        have hstr := parseJStr_plain (']' :: rest) hp
        rw [hskip2]
        simp [hstr, skipWs_rbracket]
      | cons p2 tl2 =>
        obtain ⟨y, hy⟩ := sepJoin_enc_head p2 tl2
        have hskip2 : skipWs cs =
            '"' :: (p.data ++ '"' :: ',' :: ' ' ::
              (sepJoin ((p2 :: tl2).map jsonDumpsStrChars) ++ ']' :: rest)) := by
          rw [hskip]
          simp [sepJoin_cons_cons, dumpsStr_plain hp]
        have hstr := parseJStr_plain
          (',' :: ' ' :: (sepJoin ((p2 :: tl2).map jsonDumpsStrChars) ++ ']' :: rest)) hp
        have hrec := ih f (some p :: acc)
          (' ' :: (sepJoin ((p2 :: tl2).map jsonDumpsStrChars) ++ ']' :: rest)) rest
          (by simp)
          (fun p3 hp3 => hplain p3 (List.mem_cons_of_mem _ hp3))
          (by simp only [List.length_cons] at hfuel ⊢; omega)
          (by rw [skipWs_space, hy, List.cons_append, skipWs_quote])
        rw [hskip2]
        simp only [List.map_cons, List.cons_append, List.nil_append] at hstr hrec ⊢
        simp [hstr, skipWs_comma, hrec]

/-- Round trip: `json.loads(json.dumps(parts))` returns exactly the parts (as
JSON strings), for plain-character parts. -/
lemma jsonLoads_dumps_plain (parts : List String)
    (hplain : ∀ p ∈ parts, ∀ c ∈ p.data, plainChar c = true) :
    jsonLoadsList (jsonDumps parts) = some (parts.map some) := by
  cases hparts : parts with
  | nil => rfl
  | cons p tl =>
    obtain ⟨y, hy⟩ := sepJoin_enc_head p tl
    have hylen : (p :: tl).length ≤ y.length + 1 := by
      have h1 := sepJoin_enc_length (p :: tl)
      rw [hy] at h1
      simpa using h1
    rw [jsonLoadsList]
    generalize hF : 2 * (jsonDumps (p :: tl)).data.length + 8 = F
    have hFlen : (p :: tl).length ≤ F := by
      have h2 : y.length + 1 ≤ 2 * (jsonDumps (p :: tl)).data.length + 8 := by
        rw [show (jsonDumps (p :: tl)).data =
            '[' :: (sepJoin ((p :: tl).map jsonDumpsStrChars) ++ [']']) from rfl, hy]
        simp
        omega
      omega
    rw [show (jsonDumps (p :: tl)).data =
        '[' :: (sepJoin ((p :: tl).map jsonDumpsStrChars) ++ [']']) from rfl]
    rw [hy, List.cons_append]
    have helems := jsonElems_enc (p :: tl) F [] ('"' :: (y ++ [']'])) []
      (by simp) (hparts ▸ hplain) hFlen
      (by rw [skipWs_quote, hy, List.cons_append])
    split
    · rename_i rest2 heq
      injection heq with h1 h2
      subst h2
      rw [skipWs_quote]
      split
      · rename_i r2 heq2
        exact absurd heq2 (by simp)
      · rw [helems]
        simp [skipWs]
    · rename_i x hne
      exact absurd rfl (hne ('"' :: (y ++ [']'])))

lemma startsWithBracket_dumps (parts : List String) :
    startsWithBracket (jsonDumps parts) = true := rfl

lemma contains_map_some (l : List String) (x : String) :
    (l.map some).contains (some x) = l.contains x := by
  induction l with
  | nil => rfl
  | cons a tl ih => simp [List.contains_cons, ih]

lemma candidatesFor_dumps (m : Answers) (depQid : String) (parts : List String)
    (hplain : ∀ p ∈ parts, ∀ c ∈ p.data, plainChar c = true)
    (hlk : lookupA m depQid = some (jsonDumps parts)) :
    candidatesFor m depQid = .ok (parts.map some) := by
  rw [candidatesFor, hlk]
  simp [startsWithBracket_dumps, jsonLoads_dumps_plain parts hplain]

/-- Claim C9: a non-empty comma-containing answer to a Checkbox question is
persisted as `json.dumps` of its ordered comma-split parts; reading such a
stored value back during dependency evaluation decodes it to exactly those
parts as the candidate set; hence a dependency edge expecting any one of the
parts is satisfied.  (Answers range over the printable ASCII characters that
JSON escapes to themselves.) -/
theorem C9_checkbox_roundtrip :
    (∀ (questions : List Question) (m : Answers) (pid : String)
      (pending : List PatientAnswer) (qid ans : String) (q : Question),
      questions.find? (fun q2 => q2.id = qid) = some q → q.type = "Checkbox" →
      isEmptyAns ans = false → strContains ans ',' = true →
      persistOne questions m pid pending qid ans =
        .ok (upsert pending pid qid (jsonDumps (pySplit ',' ans)))) ∧
    (∀ (m : Answers) (depQid ans : String),
      (∀ c ∈ ans.data, plainChar c = true) →
      lookupA m depQid = some (jsonDumps (pySplit ',' ans)) →
      candidatesFor m depQid = .ok ((pySplit ',' ans).map some)) ∧
    (∀ (m : Answers) (dep : QuestionDependency) (ans : String),
      (∀ c ∈ ans.data, plainChar c = true) →
      lookupA m dep.depends_on_question_id = some (jsonDumps (pySplit ',' ans)) →
      dep.depends_on_answer ∈ pySplit ',' ans →
      depSatisfied m dep = .ok true) := by
  refine ⟨?_, ?_, ?_⟩
  · intro questions m pid pending qid ans q hfind htype hne hc
    simp [persistOne, hfind, hne, hc, serializeAnswer, htype]
  · intro m depQid ans hplain hlk
    exact candidatesFor_dumps m depQid (pySplit ',' ans)
      (pySplit_plain ',' hplain) hlk
  · intro m dep ans hplain hlk hmem
    rw [depSatisfied, candidatesFor_dumps m dep.depends_on_question_id
      (pySplit ',' ans) (pySplit_plain ',' hplain) hlk]
    simp only [contains_map_some]
    simpa using hmem

/-- Witness for C9 at the concrete checkbox answer `"A,B,C"`. -/
theorem C9_checkbox_witness :
    persistOne catalogB [] "P1" [] "Q4" "A,B,C" =
      .ok (upsert [] "P1" "Q4" (jsonDumps (pySplit ',' "A,B,C"))) ∧
    candidatesFor [("Q4", jsonDumps (pySplit ',' "A,B,C"))] "Q4" =
      .ok ((pySplit ',' "A,B,C").map some) ∧
    depSatisfied [("Q4", jsonDumps (pySplit ',' "A,B,C"))] ⟨"QZ", "Q4", "B"⟩ =
      .ok true :=
  ⟨C9_checkbox_roundtrip.1 catalogB [] "P1" [] "Q4" "A,B,C" q4 (by decide) rfl
     (by decide) (by decide),
   C9_checkbox_roundtrip.2.1 _ "Q4" "A,B,C" (by decide) rfl,
   C9_checkbox_roundtrip.2.2 _ ⟨"QZ", "Q4", "B"⟩ "A,B,C" (by decide) rfl
     (by decide)⟩

end CancerRisk
